import Mathlib

/-!
# Traffic light simulation: message queue and phase cycling

A shallow embedding of `src/TrafficLight.cpp`.

* `MessageQueue<T>` is a `std::deque<T>` guarded by a mutex and a condition
  variable.  The deque is a `List T` (head of the list = front of the deque).
  Every `send` and every completed `receive` runs under the mutex, so each is
  one atomic step on the list.
* A call that may suspend its thread (`receive` on an empty deque) returns a
  `Blocking` outcome: either the call returned a value, or the thread is
  suspended inside `_cond.wait` and the state is what the call left behind.
* `long` values (cycle durations, millisecond counts) are `Int`; the only
  arithmetic the code does on them is one subtraction and one comparison.
-/

namespace TrafficSim

/-! ## Data model -/

/-- Phases of a traffic light (`enum TrafficLightPhase`). -/
inductive TrafficLightPhase
  | red
  | green
  deriving DecidableEq

/-- Outcome of a call that may suspend the calling thread. -/
inductive Blocking (σ α : Type)
  | returned (value : α) (state : σ)
  | blocked (state : σ)
  deriving DecidableEq

/-- The member `_queue` of `MessageQueue<T>`; front of the deque first. -/
structure MessageQueue (T : Type) where
  _queue : List T
  deriving DecidableEq

namespace MessageQueue

variable {T : Type}

/-- `MessageQueue<T>::receive`: under the lock, wait until `!_queue.empty()`,
then move out `_queue.front()` and `pop_front`. On an empty deque the wait
predicate is false and the thread stays suspended; nothing was mutated. -/
def receive (q : MessageQueue T) : Blocking (MessageQueue T) T :=
  match q._queue with
  | [] => Blocking.blocked q
  | msg :: rest => Blocking.returned msg { _queue := rest }

/-- `MessageQueue<T>::send`: under the lock, `_queue.push_back(msg)`. -/
def send (q : MessageQueue T) (msg : T) : MessageQueue T :=
  { _queue := q._queue ++ [msg] }

end MessageQueue

/-! ## Client scenarios over the queue -/

section Scenarios

variable {T : Type}

/-- Send every element of `xs`, in order, with no receive in between. -/
def sendAll (xs : List T) (q : MessageQueue T) : MessageQueue T :=
  xs.foldl MessageQueue.send q

/-- Call `receive` exactly `n` times in a row; `none` when one of the calls
blocks (no sender is running in this scenario). -/
def receiveN : Nat → MessageQueue T → Option (List T × MessageQueue T)
  | 0, q => some ([], q)
  | n + 1, q =>
    match q.receive with
    | Blocking.blocked _ => none
    | Blocking.returned msg q1 =>
      match receiveN n q1 with
      | none => none
      | some (out, q2) => some (msg :: out, q2)

/-- One atomic step on the shared queue. -/
inductive QueueOp (T : Type)
  | send (msg : T)
  | receive
  deriving DecidableEq

/-- Shared queue together with the log of the values returned by receives. -/
structure QueueRun (T : Type) where
  queue : MessageQueue T
  received : List T
  deriving DecidableEq

/-- Execute one step of an interleaving. A receive scheduled on an empty
queue does not complete: its thread stays suspended and nothing changes. -/
def QueueRun.step (r : QueueRun T) : QueueOp T → QueueRun T
  | QueueOp.send msg => { r with queue := r.queue.send msg }
  | QueueOp.receive =>
    match r.queue.receive with
    | Blocking.blocked _ => r
    | Blocking.returned msg q1 => { queue := q1, received := r.received ++ [msg] }

/-- Execute an interleaving from the empty queue. -/
def runOps (ops : List (QueueOp T)) : QueueRun T :=
  ops.foldl QueueRun.step { queue := { _queue := [] }, received := [] }

/-- Values sent by an interleaving, in send order. -/
def sentValues : List (QueueOp T) → List T
  | [] => []
  | QueueOp.send msg :: ops => msg :: sentValues ops
  | QueueOp.receive :: ops => sentValues ops

end Scenarios

/-! ## The traffic light -/

/-- Member functions that `simulate` starts in a thread of the list `threads`
of the base class. -/
inductive ThreadTask
  | cycleThroughPhases
  deriving DecidableEq

/-- State of a `TrafficLight` object: its two data members and the thread
list `threads` inherited from the base class. -/
structure TrafficLight where
  _currentPhase : TrafficLightPhase
  _messageQueue : MessageQueue TrafficLightPhase
  threads : List ThreadTask
  deriving DecidableEq

namespace TrafficLight

set_option linter.dupNamespace false in
/-- The constructor `TrafficLight::TrafficLight`: sets `_currentPhase` to red;
the deque and the thread list are default-constructed, hence empty. -/
def TrafficLight : TrafficSim.TrafficLight :=
  { _currentPhase := TrafficLightPhase.red
    _messageQueue := { _queue := [] }
    threads := [] }

/-- `TrafficLight::getCurrentPhase`. -/
def getCurrentPhase (s : TrafficSim.TrafficLight) : TrafficLightPhase :=
  s._currentPhase

/-- `TrafficLight::waitForGreen` with no sender running meanwhile: the
`while(true)` loop, one `receive` per iteration, bounded by `fuel` iterations.
`none`: the fuel ran out while the loop was still iterating.
`blocked`: the thread is suspended inside `receive` on the empty queue. -/
def waitForGreen : Nat → TrafficSim.TrafficLight → Option (Blocking TrafficSim.TrafficLight Unit)
  | 0, _ => none
  | fuel + 1, s =>
    match s._messageQueue.receive with
    | Blocking.blocked q => some (Blocking.blocked { s with _messageQueue := q })
    | Blocking.returned phase q =>
      if phase = TrafficLightPhase.green then
        some (Blocking.returned () { s with _messageQueue := q })
      else
        waitForGreen fuel { s with _messageQueue := q }

/-- `TrafficLight::simulate`: `threads.emplace_back(std::thread(...))`. -/
def simulate (s : TrafficSim.TrafficLight) : TrafficSim.TrafficLight :=
  { s with threads := s.threads ++ [ThreadTask.cycleThroughPhases] }

/-- The toggle of `cycleThroughPhases` (lines 91 to 94): flip `_currentPhase`,
copy it into `phaseMessage` and send that to the queue. -/
def togglePhase (s : TrafficSim.TrafficLight) : TrafficSim.TrafficLight :=
  let s1 : TrafficSim.TrafficLight :=
    { s with _currentPhase :=
        if s._currentPhase = TrafficLightPhase.red then TrafficLightPhase.green
        else TrafficLightPhase.red }
  let phaseMessage := s1._currentPhase
  { s1 with _messageQueue := s1._messageQueue.send phaseMessage }

end TrafficLight

/-! ## The cycling loop -/

/-- Contract of `std::uniform_int_distribution<long>` of the C++ standard
library, which is not code of this repository: constructed with bounds
`a ≤ b`, every value it produces lies in the closed interval from `a` to `b`,
whatever the engine yields. `sample a b e` is the value for engine outcome `e`. -/
structure UniformIntDistribution where
  sample : Int → Int → Nat → Int
  sample_mem : ∀ a b e, a ≤ b → a ≤ sample a b e ∧ sample a b e ≤ b

/-- A distribution meeting the contract: reduce the engine outcome into the
interval. -/
def modUniform : UniformIntDistribution where
  sample := fun a b e => a + (e : Int) % (b - a + 1)
  sample_mem := by
    intro a b e hab
    have hpos : (0 : Int) < b - a + 1 := by omega
    have h1 := Int.emod_nonneg (e : Int) (ne_of_gt hpos)
    have h2 := Int.emod_lt_of_pos (e : Int) hpos
    refine ⟨?_, ?_⟩ <;> dsimp only <;> omega

/-- `TrafficLight::getRandomCycleTime`; `rd` is the outcome of the random
device that seeds the engine. -/
def getRandomCycleTime (unif : UniformIntDistribution)
    (minCycleTime maxCycleTime : Int) (rd : Nat) : Int :=
  let randomValue := unif.sample minCycleTime maxCycleTime rd
  randomValue

/-- Local `cycleDurationMin` of `cycleThroughPhases`: `4.0 * 1000` as a `long`. -/
def cycleDurationMin : Int := 4 * 1000

/-- Local `cycleDurationMax` of `cycleThroughPhases`: `6.0 * 1000` as a `long`. -/
def cycleDurationMax : Int := 6 * 1000

/-- The light together with the locals of `cycleThroughPhases` that live
across loop iterations. Time points are counts of clock ticks. -/
structure CycleState where
  light : TrafficLight
  lastUpdate : Int
  currCycleDuration : Int
  deriving DecidableEq

/-- What one loop iteration reads from its environment: the clock at line 88,
the clock at line 96 and the random device at line 97 (the last two are read
only when the toggle fires). -/
structure Tick where
  now : Int
  nowAfter : Int
  rd : Nat
  deriving DecidableEq

/-- The `duration_cast<milliseconds>(now - lastUpdate).count()` of line 88:
the tick difference in whole milliseconds, truncated toward zero.
`ticksPerMs` is the number of clock ticks in a millisecond. -/
def timeSinceLastUpdate (ticksPerMs now lastUpdate : Int) : Int :=
  Int.tdiv (now - lastUpdate) ticksPerMs

/-- One iteration of the `while(true)` loop of `cycleThroughPhases`
(lines 86 to 99); the 1 ms sleep only lets the clock advance. -/
def cycleIteration (unif : UniformIntDistribution) (ticksPerMs : Int)
    (st : CycleState) (tk : Tick) : CycleState :=
  if timeSinceLastUpdate ticksPerMs tk.now st.lastUpdate ≥ st.currCycleDuration then
    { light := st.light.togglePhase
      lastUpdate := tk.nowAfter
      currCycleDuration := getRandomCycleTime unif cycleDurationMin cycleDurationMax tk.rd }
  else
    st

/-- State of `cycleThroughPhases` on entry to the loop: the first draw
(random device outcome `rd0`) and the clock reading `t0` of line 82. -/
def cycleStart (unif : UniformIntDistribution) (rd0 : Nat) (t0 : Int)
    (light : TrafficLight) : CycleState :=
  { light := light
    lastUpdate := t0
    currCycleDuration := getRandomCycleTime unif cycleDurationMin cycleDurationMax rd0 }

/-- `TrafficLight::cycleThroughPhases` run for as many loop iterations as
there are entries in `ticks`. The loop itself never ends. -/
def cycleThroughPhases (unif : UniformIntDistribution) (ticksPerMs : Int)
    (rd0 : Nat) (t0 : Int) (ticks : List Tick) (light : TrafficLight) : CycleState :=
  ticks.foldl (cycleIteration unif ticksPerMs) (cycleStart unif rd0 t0 light)

/-- The phase sequence green, red, green, ... of length `n`. -/
def alternating (n : Nat) : List TrafficLightPhase :=
  (List.range n).map
    (fun k => if k % 2 = 0 then TrafficLightPhase.green else TrafficLightPhase.red)

/-! ## A waiting caller next to the running producer -/

namespace TrafficLight

/-- Line 91 of `cycleThroughPhases` alone: the write of the flipped phase to
`_currentPhase`. No lock is held here. -/
def flipPhase (s : TrafficSim.TrafficLight) : TrafficSim.TrafficLight :=
  { s with _currentPhase :=
      if s._currentPhase = TrafficLightPhase.red then TrafficLightPhase.green
      else TrafficLightPhase.red }

end TrafficLight

/-- A light with its producer thread inside a toggle or not. `phaseMessage` is
the producer's local of that name: `some m` from the copy of line 93 until the
`send` of line 94 has run, `none` otherwise. -/
structure Running where
  light : TrafficLight
  phaseMessage : Option TrafficLightPhase
  deriving DecidableEq

/-- A constructed light whose producer has not begun a toggle. -/
def Running.start : Running :=
  { light := TrafficLight.TrafficLight, phaseMessage := none }

/-- The next atomic action of the producer inside a toggle. With no message
pending: lines 91 and 93, write the flipped phase and copy it into
`phaseMessage`. With a message pending: line 94, `send` it to the queue. Only
the `send` runs under the mutex, so other threads can run between the two. -/
def Running.producerStep (r : Running) : Running :=
  match r.phaseMessage with
  | none =>
    let light1 := r.light.flipPhase
    { light := light1, phaseMessage := some light1._currentPhase }
  | some msg =>
    { light := { r.light with _messageQueue := r.light._messageQueue.send msg }
      phaseMessage := none }

/-- What happens next while a `waitForGreen` call is in progress: the producer
thread performs its next atomic action, the caller gets to run its pending
`receive`, or some other thread (another `waitForGreen` caller) runs a
`receive` of its own. -/
inductive SchedEvent
  | producer
  | recv
  | otherRecv
  deriving DecidableEq

/-- State after a thread attempted a `receive`: the head message is gone, or
the queue was empty and nothing changed. -/
def Running.afterRecv (r : Running) : Running :=
  match r.light._messageQueue.receive with
  | Blocking.blocked _ => r
  | Blocking.returned _ q => { r with light := { r.light with _messageQueue := q } }

/-- State after one event of a schedule. -/
def Running.step (r : Running) : SchedEvent → Running
  | SchedEvent.producer => r.producerStep
  | SchedEvent.recv => r.afterRecv
  | SchedEvent.otherRecv => r.afterRecv

/-- A `waitForGreen` call under a schedule that starts when the call starts.
`some (rest, r)`: the call returned in state `r` with `rest` of the schedule
not yet run. `none`: the schedule ended before the call returned.
A `recv` on the empty queue leaves the caller suspended. -/
def waitForGreenDuring :
    List SchedEvent → Running → Option (List SchedEvent × Running)
  | [], _ => none
  | SchedEvent.producer :: rest, r => waitForGreenDuring rest r.producerStep
  | SchedEvent.otherRecv :: rest, r => waitForGreenDuring rest r.afterRecv
  | SchedEvent.recv :: rest, r =>
    match r.light._messageQueue.receive with
    | Blocking.blocked _ => waitForGreenDuring rest r
    | Blocking.returned phase q =>
      if phase = TrafficLightPhase.green then
        some (rest, { r with light := { r.light with _messageQueue := q } })
      else
        waitForGreenDuring rest { r with light := { r.light with _messageQueue := q } }

/-- Number of producer actions in a schedule run from `r` that wrote green to
`_currentPhase` (line 91 executed on a red light). -/
def greenFlips : List SchedEvent → Running → Nat
  | [], _ => 0
  | ev :: rest, r =>
    (if ev = SchedEvent.producer ∧ r.phaseMessage = none
          ∧ r.light._currentPhase = TrafficLightPhase.red then 1 else 0)
      + greenFlips rest (r.step ev)

/-- Number of producer actions in a schedule run from `r` that sent a green
message to the queue (line 94 executed with green pending). -/
def greenSends : List SchedEvent → Running → Nat
  | [], _ => 0
  | ev :: rest, r =>
    (if ev = SchedEvent.producer ∧ r.phaseMessage = some TrafficLightPhase.green
        then 1 else 0)
      + greenSends rest (r.step ev)

/-- States reached from construction by actions of the producer and completed
`waitForGreen` calls. -/
inductive Reachable : Running → Prop
  | construct : Reachable Running.start
  | producer {r : Running} : Reachable r → Reachable r.producerStep
  | waited {r r1 : Running} (sched : List SchedEvent) :
      Reachable r → waitForGreenDuring sched r = some ([], r1) → Reachable r1

/-! ## The queue with its mutex and condition variable -/

/-- Synchronisation actions and deque mutations of `send` and `receive`, in
program order. The flag of a mutation or notification records whether the
mutex was held when it happened. -/
inductive SyncEvent
  | lock
  | unlock
  | push_back (held : Bool)
  | pop_front (held : Bool)
  | notify_one (held : Bool)
  | wait
  deriving DecidableEq

/-- `MessageQueue<T>` with the members `_queue` and `_mutex` and the trace of
the actions performed on it so far. `_mutex` is true while a thread holds it. -/
structure LockedQueue (T : Type) where
  _queue : List T
  _mutex : Bool
  trace : List SyncEvent
  deriving DecidableEq

namespace LockedQueue

variable {T : Type}

/-- Constructor of `std::lock_guard` or `std::unique_lock`: take the mutex. -/
def lock (q : LockedQueue T) : LockedQueue T :=
  { q with _mutex := true, trace := q.trace ++ [SyncEvent.lock] }

/-- Destructor of the guard at the end of the scope: release the mutex. -/
def unlock (q : LockedQueue T) : LockedQueue T :=
  { q with _mutex := false, trace := q.trace ++ [SyncEvent.unlock] }

/-- The call `_queue.push_back(std::move(msg))`. -/
def push_back (q : LockedQueue T) (msg : T) : LockedQueue T :=
  { q with _queue := q._queue ++ [msg], trace := q.trace ++ [SyncEvent.push_back q._mutex] }

/-- The call `_queue.pop_front()`. -/
def pop_front (q : LockedQueue T) : LockedQueue T :=
  { q with _queue := q._queue.tail, trace := q.trace ++ [SyncEvent.pop_front q._mutex] }

/-- The call `_cond.notify_one()`. -/
def notify_one (q : LockedQueue T) : LockedQueue T :=
  { q with trace := q.trace ++ [SyncEvent.notify_one q._mutex] }

/-- The call `_cond.wait(lck, pred)` when `pred` is false: the mutex is
released and the thread suspended. -/
def wait (q : LockedQueue T) : LockedQueue T :=
  { q with _mutex := false, trace := q.trace ++ [SyncEvent.wait] }

/-- `MessageQueue<T>::send`, statement by statement (lines 30 to 33). -/
def send (q : LockedQueue T) (msg : T) : LockedQueue T :=
  let q1 := q.lock
  let q2 := q1.push_back msg
  let q3 := q2.notify_one
  q3.unlock

/-- `MessageQueue<T>::receive`, statement by statement (lines 16 to 23). -/
def receive (q : LockedQueue T) : Blocking (LockedQueue T) T :=
  let q1 := q.lock
  match q1._queue with
  | [] => Blocking.blocked q1.wait
  | msg :: _ =>
    let q2 := q1.pop_front
    Blocking.returned msg q2.unlock

/-- Forget the mutex and the trace. -/
def erase (q : LockedQueue T) : MessageQueue T :=
  { _queue := q._queue }

/-- One step of an interleaving of calls; the state after a `receive` is the
one its call left, whether it returned or is suspended. -/
def step (q : LockedQueue T) : QueueOp T → LockedQueue T
  | QueueOp.send msg => q.send msg
  | QueueOp.receive =>
    match q.receive with
    | Blocking.blocked q1 => q1
    | Blocking.returned _ q1 => q1

/-- Run an interleaving of calls from the queue as constructed: empty deque,
free mutex, empty trace. -/
def run (ops : List (QueueOp T)) : LockedQueue T :=
  ops.foldl step { _queue := [], _mutex := false, trace := [] }

end LockedQueue

/-- Is this event a deque mutation done without the mutex held. -/
def SyncEvent.unguarded : SyncEvent → Bool
  | SyncEvent.push_back held => !held
  | SyncEvent.pop_front held => !held
  | _ => false

/-- Is this event a `notify_one`. -/
def SyncEvent.isNotify : SyncEvent → Bool
  | SyncEvent.notify_one _ => true
  | _ => false

/-- Is this event a `push_back`. -/
def SyncEvent.isPush : SyncEvent → Bool
  | SyncEvent.push_back _ => true
  | _ => false

/-! ## Queue lemmas -/

section QueueLemmas

variable {T : Type}

theorem sendAll_queue (xs : List T) (q : MessageQueue T) :
    (sendAll xs q)._queue = q._queue ++ xs := by
  induction xs generalizing q with
  | nil => simp [sendAll]
  | cons x xs ih =>
    have h := ih (q.send x)
    simp only [sendAll, List.foldl_cons] at h ⊢
    rw [h]
    simp [MessageQueue.send]

theorem receiveN_list (xs ys : List T) :
    receiveN xs.length ({ _queue := xs ++ ys } : MessageQueue T)
      = some (xs, { _queue := ys }) := by
  induction xs with
  | nil => simp [receiveN]
  | cons x xs ih =>
    simp only [List.length_cons, receiveN, MessageQueue.receive, List.cons_append]
    rw [ih]

theorem sentValues_append (ops1 ops2 : List (QueueOp T)) :
    sentValues (ops1 ++ ops2) = sentValues ops1 ++ sentValues ops2 := by
  induction ops1 with
  | nil => rfl
  | cons op ops ih =>
    cases op <;> simp [sentValues, ih]

theorem step_conserves (r : QueueRun T) (op : QueueOp T) :
    (r.step op).received ++ (r.step op).queue._queue
      = r.received ++ r.queue._queue ++ sentValues [op] := by
  cases op with
  | send msg => simp [QueueRun.step, MessageQueue.send, sentValues]
  | receive =>
    obtain ⟨⟨q⟩, rcv⟩ := r
    cases q with
    | nil => simp [QueueRun.step, MessageQueue.receive, sentValues]
    | cons a rest => simp [QueueRun.step, MessageQueue.receive, sentValues]

theorem foldl_conserves (ops : List (QueueOp T)) (r : QueueRun T) :
    (ops.foldl QueueRun.step r).received ++ (ops.foldl QueueRun.step r).queue._queue
      = r.received ++ r.queue._queue ++ sentValues ops := by
  induction ops generalizing r with
  | nil => simp [sentValues]
  | cons op ops ih =>
    rw [List.foldl_cons, ih, step_conserves]
    have h := sentValues_append [op] ops
    simp only [List.singleton_append] at h
    rw [h, List.append_assoc]

end QueueLemmas

/-! ## Queue contracts -/

/-- C1: FIFO round trip. Starting from an empty queue, sending the elements
of `xs` in order and then calling `receive` exactly `xs.length` times returns
`xs` in the order sent and leaves the queue empty. -/
theorem fifo_round_trip {T : Type} (xs : List T) :
    receiveN xs.length (sendAll xs ({ _queue := [] } : MessageQueue T))
      = some (xs, { _queue := [] }) := by
  have h := sendAll_queue xs ({ _queue := [] } : MessageQueue T)
  have e : sendAll xs ({ _queue := [] } : MessageQueue T) = { _queue := xs ++ [] } := by
    cases hq : sendAll xs ({ _queue := [] } : MessageQueue T) with
    | mk l =>
      rw [hq] at h
      simp at h
      simp [h]
  rw [e]
  exact receiveN_list xs []

/-- C2: no loss and no duplication. For every finite interleaving of send and
receive steps from the empty queue, the values returned so far followed by the
queue contents are exactly the values sent so far, in send order; hence the
i-th completed receive returned the i-th sent value, and every received value
occurs among the sent ones no more often than it was sent. -/
theorem no_loss_no_duplication {T : Type} [DecidableEq T] (ops : List (QueueOp T)) :
    (runOps ops).received ++ (runOps ops).queue._queue = sentValues ops
    ∧ (runOps ops).received <+: sentValues ops
    ∧ (∀ i, i < (runOps ops).received.length →
        (runOps ops).received[i]? = (sentValues ops)[i]?)
    ∧ (∀ v, v ∈ (runOps ops).received → v ∈ sentValues ops)
    ∧ (∀ v, (runOps ops).received.count v ≤ (sentValues ops).count v) := by
  have h : (runOps ops).received ++ (runOps ops).queue._queue = sentValues ops := by
    have := foldl_conserves ops ({ queue := { _queue := [] }, received := [] } : QueueRun T)
    simpa [runOps] using this
  refine ⟨h, ⟨_, h⟩, ?_, ?_, ?_⟩
  · intro i hi
    rw [← h, List.getElem?_append_left hi]
  · intro v hv
    rw [← h]
    exact List.mem_append_left _ hv
  · intro v
    rw [← h, List.count_append]
    exact Nat.le_add_right _ _

/-- C8: the queue cannot underflow or fail. `receive` returns exactly when the
queue is non-empty, returning the head and removing only it; on the empty
queue it blocks and leaves the queue as it was. `send` always succeeds,
appends at the tail, grows the length by one and keeps the old elements. -/
theorem queue_no_underflow_no_failure {T : Type} :
    (∀ q : MessageQueue T,
        (∃ v q1, q.receive = Blocking.returned v q1) ↔ q._queue ≠ [])
    ∧ (∀ (v : T) (rest : List T),
        ({ _queue := v :: rest } : MessageQueue T).receive
          = Blocking.returned v { _queue := rest })
    ∧ (∀ q : MessageQueue T, q._queue = [] → q.receive = Blocking.blocked q)
    ∧ (∀ (q : MessageQueue T) (v : T),
        (q.send v)._queue = q._queue ++ [v]
        ∧ (q.send v)._queue.length = q._queue.length + 1
        ∧ (∀ i, i < q._queue.length → (q.send v)._queue[i]? = q._queue[i]?)) := by
  refine ⟨?_, ?_, ?_, ?_⟩
  · rintro ⟨l⟩
    cases l with
    | nil => simp [MessageQueue.receive]
    | cons a rest => simp [MessageQueue.receive]
  · intro v rest
    rfl
  · rintro ⟨l⟩ h
    simp only at h
    subst h
    rfl
  · intro q v
    refine ⟨rfl, by simp [MessageQueue.send], ?_⟩
    intro i hi
    simp [MessageQueue.send, List.getElem?_append_left hi]

/-! ## waitForGreen on a given queue content -/

theorem phase_ne_green {m : TrafficLightPhase} (h : m ≠ TrafficLightPhase.green) :
    m = TrafficLightPhase.red := by
  cases m with
  | red => rfl
  | green => exact absurd rfl h

theorem first_green_split (q : List TrafficLightPhase)
    (h : TrafficLightPhase.green ∈ q) :
    ∃ reds rest, q = reds ++ TrafficLightPhase.green :: rest
      ∧ ∀ m ∈ reds, m = TrafficLightPhase.red := by
  induction q with
  | nil => simp at h
  | cons a q ih =>
    cases a with
    | green => exact ⟨[], q, rfl, by simp⟩
    | red =>
      have h1 : TrafficLightPhase.green ∈ q := by simpa using h
      obtain ⟨reds, rest, hq, hr⟩ := ih h1
      refine ⟨TrafficLightPhase.red :: reds, rest, by simp [hq], ?_⟩
      intro m hm
      rcases List.mem_cons.mp hm with h2 | h2
      · exact h2
      · exact hr m h2

theorem waitForGreen_skips_reds (reds rest : List TrafficLightPhase)
    (hr : ∀ m ∈ reds, m = TrafficLightPhase.red)
    (p : TrafficLightPhase) (th : List ThreadTask) (fuel : Nat)
    (hf : reds.length < fuel) :
    TrafficLight.waitForGreen fuel
        { _currentPhase := p
          _messageQueue := { _queue := reds ++ TrafficLightPhase.green :: rest }
          threads := th }
      = some (Blocking.returned ()
          { _currentPhase := p, _messageQueue := { _queue := rest }, threads := th }) := by
  induction reds generalizing fuel with
  | nil =>
    cases fuel with
    | zero => simp at hf
    | succ n => simp [TrafficLight.waitForGreen, MessageQueue.receive]
  | cons a reds ih =>
    cases fuel with
    | zero => simp at hf
    | succ n =>
      have ha : a = TrafficLightPhase.red := hr a (List.mem_cons_self _ _)
      subst ha
      have hr1 : ∀ m ∈ reds, m = TrafficLightPhase.red :=
        fun m hm => hr m (List.mem_cons_of_mem _ hm)
      have hn : reds.length < n := by simpa using hf
      simpa [TrafficLight.waitForGreen, MessageQueue.receive] using ih hr1 n hn

theorem waitForGreen_blocks (q : List TrafficLightPhase)
    (hq : TrafficLightPhase.green ∉ q)
    (p : TrafficLightPhase) (th : List ThreadTask) (fuel : Nat)
    (hf : q.length < fuel) :
    TrafficLight.waitForGreen fuel
        { _currentPhase := p, _messageQueue := { _queue := q }, threads := th }
      = some (Blocking.blocked
          { _currentPhase := p, _messageQueue := { _queue := [] }, threads := th }) := by
  induction q generalizing fuel with
  | nil =>
    cases fuel with
    | zero => simp at hf
    | succ n => simp [TrafficLight.waitForGreen, MessageQueue.receive]
  | cons a q ih =>
    cases fuel with
    | zero => simp at hf
    | succ n =>
      have ha : a = TrafficLightPhase.red :=
        phase_ne_green (fun h => hq (by simp [h]))
      subst ha
      have hq1 : TrafficLightPhase.green ∉ q := fun h => hq (List.mem_cons_of_mem _ h)
      have hn : q.length < n := by simpa using hf
      simpa [TrafficLight.waitForGreen, MessageQueue.receive] using ih hq1 n hn

theorem waitForGreen_never_returns (q : List TrafficLightPhase)
    (hq : TrafficLightPhase.green ∉ q)
    (p : TrafficLightPhase) (th : List ThreadTask) (fuel : Nat) (s1 : TrafficLight) :
    TrafficLight.waitForGreen fuel
        { _currentPhase := p, _messageQueue := { _queue := q }, threads := th }
      ≠ some (Blocking.returned () s1) := by
  induction q generalizing fuel with
  | nil =>
    cases fuel with
    | zero => simp [TrafficLight.waitForGreen]
    | succ n => simp [TrafficLight.waitForGreen, MessageQueue.receive]
  | cons a q ih =>
    cases fuel with
    | zero => simp [TrafficLight.waitForGreen]
    | succ n =>
      have ha : a = TrafficLightPhase.red :=
        phase_ne_green (fun h => hq (by simp [h]))
      subst ha
      have hq1 : TrafficLightPhase.green ∉ q := fun h => hq (List.mem_cons_of_mem _ h)
      simpa [TrafficLight.waitForGreen, MessageQueue.receive] using ih hq1 n

/-- C4: `waitForGreen` consumes the queue up to and including the first green
message. If the queue holds a green message, it splits as a run of red
messages, the first green, and a rest; with fuel for one iteration more than
the run is long the call returns, the queue is then exactly the rest, and the
current phase and the thread list are as before. If the queue holds no green
message the call never returns: once every message is discarded it is blocked
in `receive` on the empty queue. -/
theorem waitForGreen_consumes_through_first_green (s : TrafficLight) :
    (TrafficLightPhase.green ∈ s._messageQueue._queue →
      ∃ reds rest,
        s._messageQueue._queue = reds ++ TrafficLightPhase.green :: rest
        ∧ (∀ m ∈ reds, m = TrafficLightPhase.red)
        ∧ ∀ fuel, reds.length < fuel →
            TrafficLight.waitForGreen fuel s
              = some (Blocking.returned ()
                  { s with _messageQueue := { _queue := rest } }))
    ∧ (TrafficLightPhase.green ∉ s._messageQueue._queue →
        (∀ fuel, s._messageQueue._queue.length < fuel →
          TrafficLight.waitForGreen fuel s
            = some (Blocking.blocked { s with _messageQueue := { _queue := [] } }))
        ∧ ∀ fuel s1, TrafficLight.waitForGreen fuel s ≠ some (Blocking.returned () s1)) := by
  obtain ⟨p, ⟨q⟩, th⟩ := s
  constructor
  · intro hg
    obtain ⟨reds, rest, hq, hr⟩ := first_green_split q hg
    refine ⟨reds, rest, hq, hr, ?_⟩
    intro fuel hf
    subst hq
    exact waitForGreen_skips_reds reds rest hr p th fuel hf
  · intro hg
    exact ⟨fun fuel hf => waitForGreen_blocks q hg p th fuel hf,
      fun fuel s1 => waitForGreen_never_returns q hg p th fuel s1⟩

/-- Witness for C4 on the queue red, red, green, red, green: the call returns
leaving red, green; on the queue red, red it ends blocked on the empty queue. -/
theorem waitForGreen_consumes_through_first_green_witness :
    TrafficLight.waitForGreen 3
        { _currentPhase := TrafficLightPhase.red
          _messageQueue := { _queue := [TrafficLightPhase.red, TrafficLightPhase.red,
            TrafficLightPhase.green, TrafficLightPhase.red, TrafficLightPhase.green] }
          threads := [] }
      = some (Blocking.returned ()
          { _currentPhase := TrafficLightPhase.red
            _messageQueue := { _queue := [TrafficLightPhase.red, TrafficLightPhase.green] }
            threads := [] })
    ∧ TrafficLight.waitForGreen 3
        { _currentPhase := TrafficLightPhase.green
          _messageQueue := { _queue := [TrafficLightPhase.red, TrafficLightPhase.red] }
          threads := [] }
      = some (Blocking.blocked
          { _currentPhase := TrafficLightPhase.green
            _messageQueue := { _queue := [] }
            threads := [] }) := by
  constructor
  · obtain ⟨reds, rest, hq, hr, h⟩ :=
      (waitForGreen_consumes_through_first_green
        { _currentPhase := TrafficLightPhase.red
          _messageQueue := { _queue := [TrafficLightPhase.red, TrafficLightPhase.red,
            TrafficLightPhase.green, TrafficLightPhase.red, TrafficLightPhase.green] }
          threads := [] }).1 (by decide)
    decide
  · exact ((waitForGreen_consumes_through_first_green
        { _currentPhase := TrafficLightPhase.green
          _messageQueue := { _queue := [TrafficLightPhase.red, TrafficLightPhase.red] }
          threads := [] }).2 (by decide)).1 3 (by decide)

/-! ## simulate -/

theorem simulate_iterate (n : Nat) (s : TrafficLight) :
    (TrafficLight.simulate^[n] s)
      = { s with threads := s.threads ++ List.replicate n ThreadTask.cycleThroughPhases } := by
  induction n generalizing s with
  | zero => simp
  | succ n ih =>
    rw [Function.iterate_succ_apply, ih]
    simp [TrafficLight.simulate, List.replicate_succ]

/-- C7, as the code behaves: `simulate` has no guard. Every call appends one
`cycleThroughPhases` thread to the thread list, so after `n` calls the list
has gained exactly `n` such entries (one producer per call) and the phase and
the queue are untouched. -/
theorem simulate_spawns_one_thread_per_call (n : Nat) (s : TrafficLight) :
    (TrafficLight.simulate^[n] s).threads
        = s.threads ++ List.replicate n ThreadTask.cycleThroughPhases
    ∧ (TrafficLight.simulate^[n] s).threads.length = s.threads.length + n
    ∧ (TrafficLight.simulate^[n] s)._currentPhase = s._currentPhase
    ∧ (TrafficLight.simulate^[n] s)._messageQueue = s._messageQueue := by
  rw [simulate_iterate]
  simp

/-- C7 fails at two calls: calling `simulate` twice on a fresh light leaves
two `cycleThroughPhases` threads in the thread list, not one. -/
theorem simulate_twice_spawns_two :
    (TrafficLight.simulate (TrafficLight.simulate TrafficLight.TrafficLight)).threads
        = [ThreadTask.cycleThroughPhases, ThreadTask.cycleThroughPhases]
    ∧ ¬ (∀ n, 1 ≤ n →
          ((TrafficLight.simulate^[n] TrafficLight.TrafficLight).threads.count
            ThreadTask.cycleThroughPhases = 1)) := by
  refine ⟨by decide, ?_⟩
  intro h
  have h2 := h 2 (by decide)
  revert h2
  decide

/-! ## The cycling loop: durations -/

theorem getRandomCycleTime_mem (unif : UniformIntDistribution)
    (lo hi : Int) (rd : Nat) (h : lo ≤ hi) :
    lo ≤ getRandomCycleTime unif lo hi rd ∧ getRandomCycleTime unif lo hi rd ≤ hi :=
  unif.sample_mem lo hi rd h

theorem draw_mem (unif : UniformIntDistribution) (rd : Nat) :
    4000 ≤ getRandomCycleTime unif cycleDurationMin cycleDurationMax rd
    ∧ getRandomCycleTime unif cycleDurationMin cycleDurationMax rd ≤ 6000 := by
  have h := getRandomCycleTime_mem unif cycleDurationMin cycleDurationMax rd (by decide)
  simpa [cycleDurationMin, cycleDurationMax] using h

theorem cycleIteration_duration (unif : UniformIntDistribution) (ticksPerMs : Int)
    (st : CycleState) (tk : Tick)
    (h : 4000 ≤ st.currCycleDuration ∧ st.currCycleDuration ≤ 6000) :
    4000 ≤ (cycleIteration unif ticksPerMs st tk).currCycleDuration
    ∧ (cycleIteration unif ticksPerMs st tk).currCycleDuration ≤ 6000 := by
  unfold cycleIteration
  split
  · exact draw_mem unif tk.rd
  · exact h

theorem foldl_duration (unif : UniformIntDistribution) (ticksPerMs : Int)
    (ticks : List Tick) (st : CycleState)
    (h : 4000 ≤ st.currCycleDuration ∧ st.currCycleDuration ≤ 6000) :
    4000 ≤ (ticks.foldl (cycleIteration unif ticksPerMs) st).currCycleDuration
    ∧ (ticks.foldl (cycleIteration unif ticksPerMs) st).currCycleDuration ≤ 6000 := by
  induction ticks generalizing st with
  | nil => exact h
  | cons tk ticks ih =>
    rw [List.foldl_cons]
    exact ih _ (cycleIteration_duration unif ticksPerMs st tk h)

/-- C6: every cycle duration used by `cycleThroughPhases` lies in the closed
interval from 4000 to 6000 ms. The bounds handed to `getRandomCycleTime` are
4000 and 6000; for every distribution that meets the library contract, every
random outcome and every `lo ≤ hi` the result of `getRandomCycleTime lo hi`
lies between `lo` and `hi`; the first draw, the redraw of every toggle and the
duration held after any number of loop iterations lie in the interval. -/
theorem cycle_duration_within_bounds (unif : UniformIntDistribution) :
    cycleDurationMin = 4000 ∧ cycleDurationMax = 6000
    ∧ (∀ (lo hi : Int) (rd : Nat), lo ≤ hi →
        lo ≤ getRandomCycleTime unif lo hi rd ∧ getRandomCycleTime unif lo hi rd ≤ hi)
    ∧ (∀ (rd0 : Nat) (t0 : Int) (light : TrafficLight),
        (cycleStart unif rd0 t0 light).currCycleDuration
            = getRandomCycleTime unif 4000 6000 rd0
        ∧ 4000 ≤ (cycleStart unif rd0 t0 light).currCycleDuration
        ∧ (cycleStart unif rd0 t0 light).currCycleDuration ≤ 6000)
    ∧ (∀ (ticksPerMs : Int) (st : CycleState) (tk : Tick),
        timeSinceLastUpdate ticksPerMs tk.now st.lastUpdate ≥ st.currCycleDuration →
          (cycleIteration unif ticksPerMs st tk).currCycleDuration
              = getRandomCycleTime unif 4000 6000 tk.rd
          ∧ 4000 ≤ (cycleIteration unif ticksPerMs st tk).currCycleDuration
          ∧ (cycleIteration unif ticksPerMs st tk).currCycleDuration ≤ 6000)
    ∧ (∀ (ticksPerMs : Int) (rd0 : Nat) (t0 : Int) (ticks : List Tick)
        (light : TrafficLight),
        4000 ≤ (cycleThroughPhases unif ticksPerMs rd0 t0 ticks light).currCycleDuration
        ∧ (cycleThroughPhases unif ticksPerMs rd0 t0 ticks light).currCycleDuration
            ≤ 6000) := by
  refine ⟨by decide, by decide, ?_, ?_, ?_, ?_⟩
  · intro lo hi rd h
    exact getRandomCycleTime_mem unif lo hi rd h
  · intro rd0 t0 light
    exact ⟨rfl, draw_mem unif rd0⟩
  · intro ticksPerMs st tk h
    have e : (cycleIteration unif ticksPerMs st tk).currCycleDuration
        = getRandomCycleTime unif cycleDurationMin cycleDurationMax tk.rd := by
      simp [cycleIteration, h]
    rw [e]
    exact ⟨rfl, draw_mem unif tk.rd⟩
  · intro ticksPerMs rd0 t0 ticks light
    exact foldl_duration unif ticksPerMs ticks _ (draw_mem unif rd0)

/-- Witness for C6 with the distribution `modUniform`, outcome 12345 and the
bounds 4000 and 6000: the value drawn is 4339. -/
theorem cycle_duration_within_bounds_witness :
    (4000 : Int) ≤ 6000
    ∧ getRandomCycleTime modUniform 4000 6000 12345 = 4339
    ∧ 4000 ≤ getRandomCycleTime modUniform 4000 6000 12345
    ∧ getRandomCycleTime modUniform 4000 6000 12345 ≤ 6000 :=
  ⟨by decide, by decide,
    (cycle_duration_within_bounds modUniform).2.2.1 4000 6000 12345 (by decide)⟩

/-! ## The cycling loop: one iteration -/

/-- C9: one iteration of the cycling loop, the two clock readings and the
random outcome being inputs. If the elapsed milliseconds since `lastUpdate`
reach the current cycle duration, the phase is flipped, exactly one message,
equal to the new phase, is appended to the queue, the thread list is kept,
`lastUpdate` becomes the clock reading taken after the send and the duration
becomes a fresh draw between 4000 and 6000. Otherwise the state is unchanged. -/
theorem cycleIteration_effect (unif : UniformIntDistribution) (ticksPerMs : Int)
    (st : CycleState) (tk : Tick) :
    (timeSinceLastUpdate ticksPerMs tk.now st.lastUpdate ≥ st.currCycleDuration →
      (st.light._currentPhase = TrafficLightPhase.red →
        (cycleIteration unif ticksPerMs st tk).light._currentPhase
          = TrafficLightPhase.green)
      ∧ (st.light._currentPhase = TrafficLightPhase.green →
        (cycleIteration unif ticksPerMs st tk).light._currentPhase
          = TrafficLightPhase.red)
      ∧ (cycleIteration unif ticksPerMs st tk).light._messageQueue._queue
          = st.light._messageQueue._queue
            ++ [(cycleIteration unif ticksPerMs st tk).light._currentPhase]
      ∧ (cycleIteration unif ticksPerMs st tk).light.threads = st.light.threads
      ∧ (cycleIteration unif ticksPerMs st tk).lastUpdate = tk.nowAfter
      ∧ (cycleIteration unif ticksPerMs st tk).currCycleDuration
          = getRandomCycleTime unif 4000 6000 tk.rd)
    ∧ (timeSinceLastUpdate ticksPerMs tk.now st.lastUpdate < st.currCycleDuration →
        cycleIteration unif ticksPerMs st tk = st) := by
  constructor
  · intro h
    have e : cycleIteration unif ticksPerMs st tk
        = { light := st.light.togglePhase
            lastUpdate := tk.nowAfter
            currCycleDuration :=
              getRandomCycleTime unif cycleDurationMin cycleDurationMax tk.rd } := by
      simp [cycleIteration, h]
    rw [e]
    refine ⟨?_, ?_, ?_, rfl, rfl, rfl⟩
    · intro hp
      simp [TrafficLight.togglePhase, hp]
    · intro hp
      simp [TrafficLight.togglePhase, hp]
    · simp [TrafficLight.togglePhase, MessageQueue.send]
  · intro h
    have h1 : ¬ (timeSinceLastUpdate ticksPerMs tk.now st.lastUpdate
        ≥ st.currCycleDuration) := not_le.mpr h
    simp [cycleIteration, h1]

/-- Witness for C9, ticks of one millisecond, distribution `modUniform`:
a red light with duration 4500 whose reference is 0 toggles at clock 4500 and
does nothing at clock 4499. -/
theorem cycleIteration_effect_witness :
    (cycleIteration modUniform 1
        { light := TrafficLight.TrafficLight, lastUpdate := 0, currCycleDuration := 4500 }
        { now := 4500, nowAfter := 4501, rd := 7 }).light._messageQueue._queue
      = [] ++ [(cycleIteration modUniform 1
        { light := TrafficLight.TrafficLight, lastUpdate := 0, currCycleDuration := 4500 }
        { now := 4500, nowAfter := 4501, rd := 7 }).light._currentPhase]
    ∧ cycleIteration modUniform 1
        { light := TrafficLight.TrafficLight, lastUpdate := 0, currCycleDuration := 4500 }
        { now := 4499, nowAfter := 4501, rd := 7 }
      = { light := TrafficLight.TrafficLight, lastUpdate := 0, currCycleDuration := 4500 } :=
  ⟨((cycleIteration_effect modUniform 1
      { light := TrafficLight.TrafficLight, lastUpdate := 0, currCycleDuration := 4500 }
      { now := 4500, nowAfter := 4501, rd := 7 }).1 (by decide)).2.2.1,
   (cycleIteration_effect modUniform 1
      { light := TrafficLight.TrafficLight, lastUpdate := 0, currCycleDuration := 4500 }
      { now := 4499, nowAfter := 4501, rd := 7 }).2 (by decide)⟩

/-! ## The cycling loop: published phases -/

theorem alternating_length (n : Nat) : (alternating n).length = n := by
  simp [alternating]

theorem alternating_succ (n : Nat) :
    alternating (n + 1)
      = alternating n
        ++ [if n % 2 = 0 then TrafficLightPhase.green else TrafficLightPhase.red] := by
  simp [alternating, List.range_succ]

theorem alternating_getElem? (n k : Nat) (h : k < n) :
    (alternating n)[k]?
      = some (if k % 2 = 0 then TrafficLightPhase.green else TrafficLightPhase.red) := by
  simp [alternating, List.getElem?_range h]

theorem togglePhase_alternates (s : TrafficLight)
    (hq : s._messageQueue._queue = alternating s._messageQueue._queue.length)
    (hp : s._currentPhase
      = if s._messageQueue._queue.length % 2 = 0 then TrafficLightPhase.red
        else TrafficLightPhase.green) :
    s.togglePhase._messageQueue._queue
        = alternating s.togglePhase._messageQueue._queue.length
    ∧ s.togglePhase._currentPhase
        = if s.togglePhase._messageQueue._queue.length % 2 = 0 then TrafficLightPhase.red
          else TrafficLightPhase.green := by
  obtain ⟨p, ⟨q⟩, th⟩ := s
  simp only at hq hp
  generalize q.length = n at hq hp
  subst hp
  subst hq
  simp only [TrafficLight.togglePhase, MessageQueue.send, List.length_append,
    List.length_singleton, alternating_length]
  rw [alternating_succ]
  rcases Nat.mod_two_eq_zero_or_one n with h | h
  · have h1 : (n + 1) % 2 = 1 := by omega
    simp [h, h1]
  · have h1 : (n + 1) % 2 = 0 := by omega
    simp [h, h1]

theorem cycleIteration_alternates (unif : UniformIntDistribution) (ticksPerMs : Int)
    (st : CycleState) (tk : Tick)
    (hq : st.light._messageQueue._queue = alternating st.light._messageQueue._queue.length)
    (hp : st.light._currentPhase
      = if st.light._messageQueue._queue.length % 2 = 0 then TrafficLightPhase.red
        else TrafficLightPhase.green) :
    (cycleIteration unif ticksPerMs st tk).light._messageQueue._queue
        = alternating (cycleIteration unif ticksPerMs st tk).light._messageQueue._queue.length
    ∧ (cycleIteration unif ticksPerMs st tk).light._currentPhase
        = if (cycleIteration unif ticksPerMs st tk).light._messageQueue._queue.length % 2 = 0
          then TrafficLightPhase.red else TrafficLightPhase.green := by
  unfold cycleIteration
  split
  · exact togglePhase_alternates st.light hq hp
  · exact ⟨hq, hp⟩

theorem foldl_alternates (unif : UniformIntDistribution) (ticksPerMs : Int)
    (ticks : List Tick) (st : CycleState)
    (hq : st.light._messageQueue._queue = alternating st.light._messageQueue._queue.length)
    (hp : st.light._currentPhase
      = if st.light._messageQueue._queue.length % 2 = 0 then TrafficLightPhase.red
        else TrafficLightPhase.green) :
    (ticks.foldl (cycleIteration unif ticksPerMs) st).light._messageQueue._queue
        = alternating
            (ticks.foldl (cycleIteration unif ticksPerMs) st).light._messageQueue._queue.length
    ∧ (ticks.foldl (cycleIteration unif ticksPerMs) st).light._currentPhase
        = if (ticks.foldl (cycleIteration unif ticksPerMs)
              st).light._messageQueue._queue.length % 2 = 0
          then TrafficLightPhase.red else TrafficLightPhase.green := by
  induction ticks generalizing st with
  | nil => exact ⟨hq, hp⟩
  | cons tk ticks ih =>
    rw [List.foldl_cons]
    have h := cycleIteration_alternates unif ticksPerMs st tk hq hp
    exact ih _ h.1 h.2

theorem run_alternates (unif : UniformIntDistribution) (ticksPerMs : Int)
    (rd0 : Nat) (t0 : Int) (ticks : List Tick) :
    (cycleThroughPhases unif ticksPerMs rd0 t0 ticks
        TrafficLight.TrafficLight).light._messageQueue._queue
      = alternating (cycleThroughPhases unif ticksPerMs rd0 t0 ticks
          TrafficLight.TrafficLight).light._messageQueue._queue.length
    ∧ (cycleThroughPhases unif ticksPerMs rd0 t0 ticks
        TrafficLight.TrafficLight).light._currentPhase
      = if (cycleThroughPhases unif ticksPerMs rd0 t0 ticks
            TrafficLight.TrafficLight).light._messageQueue._queue.length % 2 = 0
        then TrafficLightPhase.red else TrafficLightPhase.green :=
  foldl_alternates unif ticksPerMs ticks _ rfl rfl

theorem alternating_getLast (n : Nat) :
    (alternating n).getLast?.getD TrafficLightPhase.red
      = if n % 2 = 0 then TrafficLightPhase.red else TrafficLightPhase.green := by
  cases n with
  | zero => rfl
  | succ m =>
    rw [alternating_succ, List.getLast?_concat]
    rcases Nat.mod_two_eq_zero_or_one m with h | h
    · have h1 : (m + 1) % 2 = 1 := by omega
      simp [h, h1]
    · have h1 : (m + 1) % 2 = 0 := by omega
      simp [h, h1]

theorem exists_ticks_publishing (unif : UniformIntDistribution) (ticksPerMs : Int)
    (hpos : 0 < ticksPerMs) (n : Nat) (st : CycleState)
    (hd : st.currCycleDuration ≤ 6000) :
    ∃ ticks : List Tick, ticks.length = n
      ∧ (ticks.foldl (cycleIteration unif ticksPerMs) st).light._messageQueue._queue.length
          = st.light._messageQueue._queue.length + n := by
  induction n generalizing st with
  | zero => exact ⟨[], rfl, rfl⟩
  | succ n ih =>
    have hfire : timeSinceLastUpdate ticksPerMs (st.lastUpdate + 6000 * ticksPerMs)
        st.lastUpdate ≥ st.currCycleDuration := by
      have e : st.lastUpdate + 6000 * ticksPerMs - st.lastUpdate = 6000 * ticksPerMs := by
        omega
      rw [timeSinceLastUpdate, e, Int.mul_tdiv_cancel 6000 (ne_of_gt hpos)]
      exact hd
    have e : cycleIteration unif ticksPerMs st
          { now := st.lastUpdate + 6000 * ticksPerMs, nowAfter := 0, rd := 0 }
        = { light := st.light.togglePhase
            lastUpdate := 0
            currCycleDuration :=
              getRandomCycleTime unif cycleDurationMin cycleDurationMax 0 } := by
      simp only [cycleIteration]
      rw [if_pos hfire]
    obtain ⟨ticks, hl, hq⟩ := ih
      { light := st.light.togglePhase
        lastUpdate := 0
        currCycleDuration := getRandomCycleTime unif cycleDurationMin cycleDurationMax 0 }
      (draw_mem unif 0).2
    refine ⟨{ now := st.lastUpdate + 6000 * ticksPerMs, nowAfter := 0, rd := 0 } :: ticks,
      by simp [hl], ?_⟩
    rw [List.foldl_cons, e, hq]
    simp [TrafficLight.togglePhase, MessageQueue.send]
    omega

/-- C5: strict alternation of published phases. A freshly constructed light
is red with an empty queue. After any number of loop iterations of one run of
`cycleThroughPhases` on it, the messages in the queue are green, red, green,
...: the k-th, counted from 1, is green exactly when k is odd; no two
neighbours are equal; the current phase is the last message published (red if
none was). At each toggle the message appended is the new current phase. With
a positive tick rate every number `n` of published messages is reached by
some run. -/
theorem published_phases_alternate (unif : UniformIntDistribution) (ticksPerMs : Int)
    (rd0 : Nat) (t0 : Int) (ticks : List Tick) :
    TrafficLight.TrafficLight._currentPhase = TrafficLightPhase.red
    ∧ TrafficLight.TrafficLight._messageQueue._queue = []
    ∧ (∀ k, 1 ≤ k →
        k ≤ (cycleThroughPhases unif ticksPerMs rd0 t0 ticks
              TrafficLight.TrafficLight).light._messageQueue._queue.length →
        (cycleThroughPhases unif ticksPerMs rd0 t0 ticks
            TrafficLight.TrafficLight).light._messageQueue._queue[k - 1]?
          = some (if k % 2 = 1 then TrafficLightPhase.green else TrafficLightPhase.red))
    ∧ (∀ k,
        k + 1 < (cycleThroughPhases unif ticksPerMs rd0 t0 ticks
              TrafficLight.TrafficLight).light._messageQueue._queue.length →
        (cycleThroughPhases unif ticksPerMs rd0 t0 ticks
            TrafficLight.TrafficLight).light._messageQueue._queue[k]?
          ≠ (cycleThroughPhases unif ticksPerMs rd0 t0 ticks
            TrafficLight.TrafficLight).light._messageQueue._queue[k + 1]?)
    ∧ (cycleThroughPhases unif ticksPerMs rd0 t0 ticks
          TrafficLight.TrafficLight).light._currentPhase
        = (cycleThroughPhases unif ticksPerMs rd0 t0 ticks
            TrafficLight.TrafficLight).light._messageQueue._queue.getLast?.getD
              TrafficLightPhase.red
    ∧ (∀ (st : CycleState) (tk : Tick),
        timeSinceLastUpdate ticksPerMs tk.now st.lastUpdate ≥ st.currCycleDuration →
        (cycleIteration unif ticksPerMs st tk).light._messageQueue._queue
          = st.light._messageQueue._queue
            ++ [(cycleIteration unif ticksPerMs st tk).light._currentPhase])
    ∧ (0 < ticksPerMs → ∀ n, ∃ ticks1 : List Tick,
        (cycleThroughPhases unif ticksPerMs rd0 t0 ticks1
            TrafficLight.TrafficLight).light._messageQueue._queue = alternating n) := by
  obtain ⟨hq, hp⟩ := run_alternates unif ticksPerMs rd0 t0 ticks
  refine ⟨rfl, rfl, ?_, ?_, ?_, ?_, ?_⟩
  · generalize (cycleThroughPhases unif ticksPerMs rd0 t0 ticks
      TrafficLight.TrafficLight).light._messageQueue._queue = q at hq
    generalize q.length = n at hq
    subst hq
    intro k hk1 hk2
    rw [alternating_getElem? _ (k - 1) (by omega)]
    rcases Nat.mod_two_eq_zero_or_one k with h | h
    · have h1 : (k - 1) % 2 = 1 := by omega
      simp [h, h1]
    · have h1 : (k - 1) % 2 = 0 := by omega
      simp [h, h1]
  · generalize (cycleThroughPhases unif ticksPerMs rd0 t0 ticks
      TrafficLight.TrafficLight).light._messageQueue._queue = q at hq
    generalize q.length = n at hq
    subst hq
    intro k hk
    rw [alternating_getElem? _ k (by omega), alternating_getElem? _ (k + 1) hk]
    rcases Nat.mod_two_eq_zero_or_one k with h | h
    · have h1 : (k + 1) % 2 = 1 := by omega
      simp [h, h1]
    · have h1 : (k + 1) % 2 = 0 := by omega
      simp [h, h1]
  · rw [hp]
    generalize (cycleThroughPhases unif ticksPerMs rd0 t0 ticks
      TrafficLight.TrafficLight).light._messageQueue._queue = q at hq
    generalize hn : q.length = n at hq
    subst hq
    rw [alternating_getLast]
  · intro st tk h
    simp [cycleIteration, h, TrafficLight.togglePhase, MessageQueue.send]
  · intro hpos n
    obtain ⟨ticks1, _, hlen⟩ := exists_ticks_publishing unif ticksPerMs hpos n
      (cycleStart unif rd0 t0 TrafficLight.TrafficLight) (draw_mem unif rd0).2
    refine ⟨ticks1, ?_⟩
    have h := (run_alternates unif ticksPerMs rd0 t0 ticks1).1
    have hlen1 : (cycleThroughPhases unif ticksPerMs rd0 t0 ticks1
        TrafficLight.TrafficLight).light._messageQueue._queue.length = n := by
      simpa [cycleThroughPhases, cycleStart, TrafficLight.TrafficLight] using hlen
    rw [hlen1] at h
    exact h

/-- Witness for C5, ticks of one millisecond, distribution `modUniform`:
three iterations that all fire publish green, red, green. -/
theorem published_phases_alternate_witness :
    (cycleThroughPhases modUniform 1 0 0
        [{ now := 6000, nowAfter := 6000, rd := 0 },
         { now := 12000, nowAfter := 12000, rd := 0 },
         { now := 18000, nowAfter := 18000, rd := 0 }]
        TrafficLight.TrafficLight).light._messageQueue._queue
      = [TrafficLightPhase.green, TrafficLightPhase.red, TrafficLightPhase.green]
    ∧ (cycleThroughPhases modUniform 1 0 0
        [{ now := 6000, nowAfter := 6000, rd := 0 },
         { now := 12000, nowAfter := 12000, rd := 0 },
         { now := 18000, nowAfter := 18000, rd := 0 }]
        TrafficLight.TrafficLight).light._messageQueue._queue[3 - 1]?
      = some (if 3 % 2 = 1 then TrafficLightPhase.green else TrafficLightPhase.red) :=
  ⟨by decide,
    (published_phases_alternate modUniform 1 0 0
        [{ now := 6000, nowAfter := 6000, rd := 0 },
         { now := 12000, nowAfter := 12000, rd := 0 },
         { now := 18000, nowAfter := 18000, rd := 0 }]).2.2.1 3 (by decide) (by decide)⟩

/-! ## A waiting caller next to the running producer -/

theorem producerStep_twice (s : TrafficLight) :
    (Running.producerStep (Running.producerStep { light := s, phaseMessage := none }))
      = { light := s.togglePhase, phaseMessage := none } := rfl

theorem waitForGreenDuring_consumed (sched : List SchedEvent) (r : Running)
    (rest : List SchedEvent) (r1 : Running)
    (h : waitForGreenDuring sched r = some (rest, r1)) :
    ∃ pre, sched = pre ++ rest := by
  induction sched generalizing r with
  | nil => simp [waitForGreenDuring] at h
  | cons ev tl ih =>
    cases ev with
    | producer =>
      obtain ⟨pre, hpre⟩ := ih r.producerStep h
      exact ⟨SchedEvent.producer :: pre, by simp [hpre]⟩
    | otherRecv =>
      obtain ⟨pre, hpre⟩ := ih r.afterRecv h
      exact ⟨SchedEvent.otherRecv :: pre, by simp [hpre]⟩
    | recv =>
      obtain ⟨⟨p, ⟨q⟩, th⟩, pm⟩ := r
      cases q with
      | nil =>
        obtain ⟨pre, hpre⟩ := ih _ (by simpa [waitForGreenDuring, MessageQueue.receive] using h)
        exact ⟨SchedEvent.recv :: pre, by simp [hpre]⟩
      | cons m q =>
        cases m with
        | green =>
          simp [waitForGreenDuring, MessageQueue.receive] at h
          exact ⟨[SchedEvent.recv], by simp [h.1]⟩
        | red =>
          obtain ⟨pre, hpre⟩ :=
            ih _ (by simpa [waitForGreenDuring, MessageQueue.receive] using h)
          exact ⟨SchedEvent.recv :: pre, by simp [hpre]⟩

theorem afterRecv_keeps (r : Running)
    (hq : TrafficLightPhase.green ∉ r.light._messageQueue._queue) :
    TrafficLightPhase.green ∉ r.afterRecv.light._messageQueue._queue
    ∧ r.afterRecv.phaseMessage = r.phaseMessage
    ∧ r.afterRecv.light._currentPhase = r.light._currentPhase := by
  obtain ⟨⟨p, ⟨q⟩, th⟩, pm⟩ := r
  cases q with
  | nil => exact ⟨hq, rfl, rfl⟩
  | cons m q =>
    exact ⟨fun e => hq (List.mem_cons_of_mem _ e), rfl, rfl⟩

theorem waitForGreenDuring_recv_only (fuel : Nat) (s s1 : TrafficLight)
    (pm : Option TrafficLightPhase)
    (h : TrafficLight.waitForGreen fuel s = some (Blocking.returned () s1)) :
    ∃ rest, waitForGreenDuring (List.replicate fuel SchedEvent.recv)
        { light := s, phaseMessage := pm }
      = some (rest, { light := s1, phaseMessage := pm }) := by
  induction fuel generalizing s with
  | zero => simp [TrafficLight.waitForGreen] at h
  | succ n ih =>
    obtain ⟨p, ⟨q⟩, th⟩ := s
    cases q with
    | nil => simp [TrafficLight.waitForGreen, MessageQueue.receive] at h
    | cons m q =>
      cases m with
      | green =>
        simp only [TrafficLight.waitForGreen, MessageQueue.receive, if_true,
          Option.some.injEq, Blocking.returned.injEq, true_and] at h
        exact ⟨List.replicate n SchedEvent.recv, by
          simp [List.replicate_succ, waitForGreenDuring, MessageQueue.receive, h]⟩
      | red =>
        obtain ⟨rest, hr⟩ :=
          ih { _currentPhase := p, _messageQueue := { _queue := q }, threads := th }
            (by simpa [TrafficLight.waitForGreen, MessageQueue.receive] using h)
        exact ⟨rest, by
          simpa [List.replicate_succ, waitForGreenDuring, MessageQueue.receive] using hr⟩

/-- C3, as the code behaves: if the queue holds no green message when a
`waitForGreen` call begins and the call returns, then between the start of
the call and its return the producer sent a green message to the queue; if
moreover the producer was not, when the call began, between the phase write
and the send of a toggle to green, then the write of green to the current
phase also happened between the start of the call and its return. This holds
under every schedule of producer actions, receives of the caller and receives
of other threads. -/
theorem waitForGreen_returns_after_green_toggle (sched : List SchedEvent)
    (r : Running) (rest : List SchedEvent) (r1 : Running)
    (hq : TrafficLightPhase.green ∉ r.light._messageQueue._queue)
    (h : waitForGreenDuring sched r = some (rest, r1)) :
    ∃ pre, sched = pre ++ rest
      ∧ 1 ≤ greenSends pre r
      ∧ (r.phaseMessage ≠ some TrafficLightPhase.green → 1 ≤ greenFlips pre r) := by
  induction sched generalizing r with
  | nil => simp [waitForGreenDuring] at h
  | cons ev tl ih =>
    cases ev with
    | producer =>
      obtain ⟨⟨p, ⟨q⟩, th⟩, pm⟩ := r
      simp only [waitForGreenDuring] at h
      cases pm with
      | none =>
        have hq1 : TrafficLightPhase.green ∉
            (Running.producerStep
              { light := { _currentPhase := p, _messageQueue := { _queue := q },
                           threads := th }
                phaseMessage := none }).light._messageQueue._queue := by
          simpa [Running.producerStep, TrafficLight.flipPhase] using hq
        obtain ⟨pre, hpre, hs, hf⟩ := ih _ hq1 h
        refine ⟨SchedEvent.producer :: pre, by simp [hpre], ?_, ?_⟩
        · simpa [greenSends, Running.step] using hs
        · intro _
          cases p with
          | red => simp [greenFlips]
          | green =>
            have hf1 := hf (by simp [Running.producerStep, TrafficLight.flipPhase])
            simpa [greenFlips, Running.step] using hf1
      | some msg =>
        cases msg with
        | green =>
          obtain ⟨pre, hpre⟩ := waitForGreenDuring_consumed tl _ rest r1 h
          exact ⟨SchedEvent.producer :: pre, by simp [hpre], by simp [greenSends],
            fun hne => absurd rfl hne⟩
        | red =>
          have hq1 : TrafficLightPhase.green ∉
              (Running.producerStep
                { light := { _currentPhase := p, _messageQueue := { _queue := q },
                             threads := th }
                  phaseMessage := some TrafficLightPhase.red }).light._messageQueue._queue := by
            simpa [Running.producerStep, MessageQueue.send] using hq
          obtain ⟨pre, hpre, hs, hf⟩ := ih _ hq1 h
          refine ⟨SchedEvent.producer :: pre, by simp [hpre], ?_, ?_⟩
          · simpa [greenSends, Running.step] using hs
          · intro _
            have hf1 := hf (by simp [Running.producerStep])
            simpa [greenFlips, Running.step] using hf1
    | otherRecv =>
      simp only [waitForGreenDuring] at h
      obtain ⟨hq1, hpm, _⟩ := afterRecv_keeps r hq
      obtain ⟨pre, hpre, hs, hf⟩ := ih _ hq1 h
      refine ⟨SchedEvent.otherRecv :: pre, by simp [hpre], ?_, ?_⟩
      · simpa [greenSends, Running.step] using hs
      · intro hne
        have hf1 := hf (by rw [hpm]; exact hne)
        simpa [greenFlips, Running.step] using hf1
    | recv =>
      obtain ⟨⟨p, ⟨q⟩, th⟩, pm⟩ := r
      cases q with
      | nil =>
        obtain ⟨pre, hpre, hs, hf⟩ :=
          ih _ hq (by simpa [waitForGreenDuring, MessageQueue.receive] using h)
        refine ⟨SchedEvent.recv :: pre, by simp [hpre], ?_, ?_⟩
        · simpa [greenSends, Running.step, Running.afterRecv, MessageQueue.receive] using hs
        · intro hne
          simpa [greenFlips, Running.step, Running.afterRecv, MessageQueue.receive]
            using hf hne
      | cons m q =>
        have hm : m = TrafficLightPhase.red :=
          phase_ne_green (fun e => hq (by simp [e]))
        subst hm
        have hq1 : TrafficLightPhase.green ∉ q := fun e => hq (List.mem_cons_of_mem _ e)
        obtain ⟨pre, hpre, hs, hf⟩ :=
          ih { light := { _currentPhase := p, _messageQueue := { _queue := q },
                          threads := th }
               phaseMessage := pm } hq1
            (by simpa [waitForGreenDuring, MessageQueue.receive] using h)
        refine ⟨SchedEvent.recv :: pre, by simp [hpre], ?_, ?_⟩
        · simpa [greenSends, Running.step, Running.afterRecv, MessageQueue.receive] using hs
        · intro hne
          simpa [greenFlips, Running.step, Running.afterRecv, MessageQueue.receive]
            using hf hne

/-- Witness for C3 as amended: on a fresh light the caller is first suspended
on the empty queue, the producer writes green and sends it, and the call then
returns. -/
theorem waitForGreen_returns_after_green_toggle_witness :
    waitForGreenDuring
        [SchedEvent.recv, SchedEvent.producer, SchedEvent.producer, SchedEvent.recv]
        Running.start
      = some ([], { light := { _currentPhase := TrafficLightPhase.green
                               _messageQueue := { _queue := [] }
                               threads := [] }
                    phaseMessage := none })
    ∧ ∃ pre,
        [SchedEvent.recv, SchedEvent.producer, SchedEvent.producer, SchedEvent.recv]
          = pre ++ []
        ∧ 1 ≤ greenSends pre Running.start
        ∧ (Running.start.phaseMessage ≠ some TrafficLightPhase.green →
            1 ≤ greenFlips pre Running.start) :=
  ⟨by decide,
    waitForGreen_returns_after_green_toggle
      [SchedEvent.recv, SchedEvent.producer, SchedEvent.producer, SchedEvent.recv]
      Running.start []
      { light := { _currentPhase := TrafficLightPhase.green
                   _messageQueue := { _queue := [] }
                   threads := [] }
        phaseMessage := none }
      (by decide) (by decide)⟩

/-- C3 fails on a reachable state: after one toggle (phase write and send) the
queue holds a green message; a `waitForGreen` call that starts then returns at
its first `receive` with no producer action at all between its start and its
return. After two toggles the same happens while the current phase is red.
A call that starts between the write of green and its send returns after the
send, again with no write of green during the call. -/
theorem waitForGreen_returns_on_stale_green :
    Reachable Running.start.producerStep.producerStep
    ∧ Running.start.producerStep.producerStep
        = { light := TrafficLight.TrafficLight.togglePhase, phaseMessage := none }
    ∧ waitForGreenDuring [SchedEvent.recv] Running.start.producerStep.producerStep
        = some ([], { light := { _currentPhase := TrafficLightPhase.green
                                 _messageQueue := { _queue := [] }
                                 threads := [] }
                      phaseMessage := none })
    ∧ greenFlips [SchedEvent.recv] Running.start.producerStep.producerStep = 0
    ∧ waitForGreenDuring [SchedEvent.recv]
          Running.start.producerStep.producerStep.producerStep.producerStep
        = some ([], { light := { _currentPhase := TrafficLightPhase.red
                                 _messageQueue := { _queue := [TrafficLightPhase.red] }
                                 threads := [] }
                      phaseMessage := none })
    ∧ waitForGreenDuring [SchedEvent.producer, SchedEvent.recv] Running.start.producerStep
        = some ([], { light := { _currentPhase := TrafficLightPhase.green
                                 _messageQueue := { _queue := [] }
                                 threads := [] }
                      phaseMessage := none })
    ∧ greenFlips [SchedEvent.producer, SchedEvent.recv] Running.start.producerStep = 0
    ∧ ¬ (∀ r : Running, Reachable r → ∀ sched r1,
          waitForGreenDuring sched r = some ([], r1) → 1 ≤ greenFlips sched r) := by
  refine ⟨Reachable.producer (Reachable.producer Reachable.construct), rfl,
    by decide, by decide, by decide, by decide, by decide, ?_⟩
  intro h
  have h1 := h Running.start.producerStep.producerStep
    (Reachable.producer (Reachable.producer Reachable.construct)) [SchedEvent.recv] _
    (by decide : waitForGreenDuring [SchedEvent.recv] Running.start.producerStep.producerStep
        = some ([], { light := { _currentPhase := TrafficLightPhase.green
                                 _messageQueue := { _queue := [] }
                                 threads := [] }
                      phaseMessage := none }))
  revert h1
  decide

/-! ## Locking discipline -/

section Locking

variable {T : Type}

theorem LockedQueue.send_trace (q : LockedQueue T) (msg : T) :
    (q.send msg).trace
      = q.trace ++ [SyncEvent.lock, SyncEvent.push_back true,
          SyncEvent.notify_one true, SyncEvent.unlock] := by
  simp [LockedQueue.send, LockedQueue.lock, LockedQueue.push_back,
    LockedQueue.notify_one, LockedQueue.unlock]

theorem LockedQueue.send_erase (q : LockedQueue T) (msg : T) :
    (q.send msg).erase = q.erase.send msg := by
  simp [LockedQueue.send, LockedQueue.lock, LockedQueue.push_back,
    LockedQueue.notify_one, LockedQueue.unlock, LockedQueue.erase, MessageQueue.send]

theorem LockedQueue.step_trace (q : LockedQueue T) (op : QueueOp T) :
    ∃ evs, (q.step op).trace = q.trace ++ evs
      ∧ (∀ e ∈ evs, SyncEvent.unguarded e = false)
      ∧ evs.countP SyncEvent.isNotify = (sentValues [op]).length
      ∧ evs.countP SyncEvent.isPush = (sentValues [op]).length := by
  cases op with
  | send msg =>
    refine ⟨[SyncEvent.lock, SyncEvent.push_back true, SyncEvent.notify_one true,
      SyncEvent.unlock], LockedQueue.send_trace q msg, ?_, ?_, ?_⟩
    · intro e he
      simp at he
      rcases he with h | h | h | h <;> subst h <;> rfl
    · simp [sentValues, List.countP_cons, SyncEvent.isNotify]
    · simp [sentValues, List.countP_cons, SyncEvent.isPush]
  | receive =>
    obtain ⟨l, m, tr⟩ := q
    cases l with
    | nil =>
      refine ⟨[SyncEvent.lock, SyncEvent.wait], ?_, ?_, ?_, ?_⟩
      · simp [LockedQueue.step, LockedQueue.receive, LockedQueue.lock, LockedQueue.wait]
      · intro e he
        simp at he
        rcases he with h | h <;> subst h <;> rfl
      · simp [sentValues, List.countP_cons, SyncEvent.isNotify]
      · simp [sentValues, List.countP_cons, SyncEvent.isPush]
    | cons a rest =>
      refine ⟨[SyncEvent.lock, SyncEvent.pop_front true, SyncEvent.unlock], ?_, ?_, ?_, ?_⟩
      · simp [LockedQueue.step, LockedQueue.receive, LockedQueue.lock,
          LockedQueue.pop_front, LockedQueue.unlock]
      · intro e he
        simp at he
        rcases he with h | h | h <;> subst h <;> rfl
      · simp [sentValues, List.countP_cons, SyncEvent.isNotify]
      · simp [sentValues, List.countP_cons, SyncEvent.isPush]

theorem LockedQueue.foldl_trace (ops : List (QueueOp T)) (q : LockedQueue T) :
    ∃ evs, (ops.foldl LockedQueue.step q).trace = q.trace ++ evs
      ∧ (∀ e ∈ evs, SyncEvent.unguarded e = false)
      ∧ evs.countP SyncEvent.isNotify = (sentValues ops).length
      ∧ evs.countP SyncEvent.isPush = (sentValues ops).length := by
  induction ops generalizing q with
  | nil => exact ⟨[], by simp, by simp, by simp [sentValues], by simp [sentValues]⟩
  | cons op ops ih =>
    obtain ⟨evs1, h1, g1, n1, p1⟩ := LockedQueue.step_trace q op
    obtain ⟨evs2, h2, g2, n2, p2⟩ := ih (q.step op)
    have hs := sentValues_append [op] ops
    simp only [List.singleton_append] at hs
    refine ⟨evs1 ++ evs2, ?_, ?_, ?_, ?_⟩
    · rw [List.foldl_cons, h2, h1, List.append_assoc]
    · intro e he
      rcases List.mem_append.mp he with h | h
      · exact g1 e h
      · exact g2 e h
    · rw [List.countP_append, n1, n2, hs, List.length_append]
    · rw [List.countP_append, p1, p2, hs, List.length_append]

theorem LockedQueue.step_erase (q : LockedQueue T) (r : QueueRun T) (op : QueueOp T)
    (h : q.erase = r.queue) : (q.step op).erase = (r.step op).queue := by
  cases op with
  | send msg =>
    simp only [LockedQueue.step, QueueRun.step]
    rw [LockedQueue.send_erase, h]
  | receive =>
    obtain ⟨l, m, tr⟩ := q
    obtain ⟨⟨l1⟩, rcv⟩ := r
    simp only [LockedQueue.erase, MessageQueue.mk.injEq] at h
    subst h
    cases l with
    | nil =>
      simp [LockedQueue.step, LockedQueue.receive, LockedQueue.lock, LockedQueue.wait,
        LockedQueue.erase, QueueRun.step, MessageQueue.receive]
    | cons a rest =>
      simp [LockedQueue.step, LockedQueue.receive, LockedQueue.lock, LockedQueue.pop_front,
        LockedQueue.unlock, LockedQueue.erase, QueueRun.step, MessageQueue.receive]

theorem LockedQueue.foldl_erase (ops : List (QueueOp T)) (q : LockedQueue T)
    (r : QueueRun T) (h : q.erase = r.queue) :
    (ops.foldl LockedQueue.step q).erase = (ops.foldl QueueRun.step r).queue := by
  induction ops generalizing q r with
  | nil => exact h
  | cons op ops ih =>
    rw [List.foldl_cons, List.foldl_cons]
    exact ih _ _ (LockedQueue.step_erase q r op h)

end Locking

/-- C10, as the code behaves: every `send` call performs, in this order,
acquire the mutex, append the value at the tail, `notify_one` with the mutex
still held, release the mutex at the end of the scope; its effect on the
deque is that of the atomic `send`. In every interleaving of `send` and
`receive` calls from the constructed queue each deque mutation happens with
the mutex held, there is exactly one `notify_one` per insertion and one
insertion per `send`, and the deque is the one the atomic steps produce. -/
theorem send_locking_discipline {T : Type} (q : LockedQueue T) (msg : T)
    (ops : List (QueueOp T)) :
    (q.send msg).trace
        = q.trace ++ [SyncEvent.lock, SyncEvent.push_back true,
            SyncEvent.notify_one true, SyncEvent.unlock]
    ∧ (q.send msg).erase = q.erase.send msg
    ∧ (q.send msg)._mutex = false
    ∧ (∀ e ∈ (LockedQueue.run ops).trace, SyncEvent.unguarded e = false)
    ∧ (LockedQueue.run ops).trace.countP SyncEvent.isNotify
        = (LockedQueue.run ops).trace.countP SyncEvent.isPush
    ∧ (LockedQueue.run ops).trace.countP SyncEvent.isPush = (sentValues ops).length
    ∧ (LockedQueue.run ops).erase = (runOps ops).queue := by
  obtain ⟨evs, ht, hg, hn, hp⟩ :=
    LockedQueue.foldl_trace ops ({ _queue := [], _mutex := false, trace := [] } : LockedQueue T)
  have ht1 : (LockedQueue.run ops).trace = evs := by
    simpa [LockedQueue.run] using ht
  refine ⟨LockedQueue.send_trace q msg, LockedQueue.send_erase q msg, rfl, ?_, ?_, ?_, ?_⟩
  · intro e he
    rw [ht1] at he
    exact hg e he
  · rw [ht1, hn, hp]
  · rw [ht1, hp]
  · exact LockedQueue.foldl_erase ops _ _ rfl

/-- C10 fails on the order of release and signal: in `send` the `notify_one`
comes before the release of the mutex, with the mutex held, and not after it. -/
theorem send_notifies_before_unlock :
    (LockedQueue.send ({ _queue := [], _mutex := false, trace := [] } :
        LockedQueue TrafficLightPhase) TrafficLightPhase.green).trace
      = [SyncEvent.lock, SyncEvent.push_back true, SyncEvent.notify_one true,
          SyncEvent.unlock]
    ∧ (LockedQueue.send ({ _queue := [], _mutex := false, trace := [] } :
        LockedQueue TrafficLightPhase) TrafficLightPhase.green).trace
      ≠ [SyncEvent.lock, SyncEvent.push_back true, SyncEvent.unlock,
          SyncEvent.notify_one false]
    ∧ ¬ (∀ (q : LockedQueue TrafficLightPhase) (msg : TrafficLightPhase),
          (q.send msg).trace
            = q.trace ++ [SyncEvent.lock, SyncEvent.push_back true, SyncEvent.unlock,
                SyncEvent.notify_one false]) := by
  refine ⟨by decide, by decide, ?_⟩
  intro h
  have h1 := h { _queue := [], _mutex := false, trace := [] } TrafficLightPhase.green
  revert h1
  decide

end TrafficSim
